import Mathlib

/-!
Verification of the identity and credential management core of the
nasa-biology-engine backend, shallowly embedded from the Python sources:

- `backend/encryption.py`  (CredentialVault: encrypt_value / decrypt_value)
- `backend/auth_oauth.py`  (TokenService, OAuth variant: create_jwt_token / verify_jwt_token)
- `backend/logic/auth.py`  (PasswordStore: hash_password / verify_password /
  authenticate_user / verify_token / logout_user)
- `backend/db.py`          (IdentityResolver: create_or_update_user)

Cryptographic primitives (PBKDF2-HMAC-SHA256, Fernet authenticated
encryption, SHA-256 fingerprints, HMAC-SHA256 JWT signatures) are modelled
in the standard ideal (symbolic) way: each primitive is a collision-free
injective function of its inputs, represented by a tagged value carrying
those inputs; authenticated decryption succeeds exactly on the image of
encryption under the same key.  Byte strings are lists over an inductive
byte type so that truncation and byte-level corruption of a blob are
expressible exactly as the Python code sees them.
-/

/-- Bytes of an encrypted blob.  A byte is either a plain raw byte (as in the
random salt), or one byte of a Fernet ciphertext.  Fernet is authenticated
encryption; ideally, a ciphertext byte is determined by the key under which
it was produced (here: the PBKDF2 inputs, master secret plus raw salt), the
plaintext, the position of the byte, and the total ciphertext length. -/
inductive EByte where
  | raw (b : Nat)
  | ct (secret : String) (salt : List Nat) (msg : String) (idx : Nat) (len : Nat)
deriving DecidableEq, Repr

/-- Byte length of a Fernet token for message `m`: version (1) + timestamp
(8) + IV (16) + PKCS7-padded ciphertext + HMAC tag (32). -/
def ctLen (m : String) : Nat := 57 + 16 * (m.utf8ByteSize / 16 + 1)

/-- Ideal Fernet encryption under the key `PBKDF2(secret, salt)` (the key
derivation of `derive_key` in `encryption.py` is idealised as the injective
pairing of its inputs). -/
def fernetEncrypt (secret : String) (salt : List Nat) (m : String) : List EByte :=
  (List.range (ctLen m)).map (fun i => EByte.ct secret salt m i (ctLen m))

/-- Ideal Fernet decryption under the key derived from `secret` and the
extracted salt-region bytes `saltBytes`: succeeds exactly when the input is
the exact encryption of some message under the same derived key, i.e. when
the authentication tag verifies. -/
def fernetDecrypt (secret : String) (saltBytes : List EByte) (bs : List EByte) : Option String :=
  match bs with
  | EByte.ct sec sal m 0 _ :: _ =>
      if sec = secret ∧ saltBytes = sal.map EByte.raw ∧ bs = fernetEncrypt sec sal m
      then some m else none
  | _ => none

/-- Model of `encrypt_value` (`encryption.py` lines 33 to 53).  The module
global `ENCRYPTION_KEY` and the 16 random salt bytes drawn by
`secrets.token_bytes(16)` are passed as parameters.  The returned blob is
the base64 payload `salt ++ ciphertext`; base64 itself is a bijection onto
its image and is elided, the empty string corresponding to `[]`. -/
def encrypt_value (encryptionKey : String) (salt : List Nat) (value : String) : List EByte :=
  if value = "" then []
  else salt.map EByte.raw ++ fernetEncrypt encryptionKey salt value

/-- Model of `decrypt_value` (`encryption.py` lines 56 to 79).  `none` is the
`ValueError` (DecryptionError) raised on any failure; an empty input is
returned unchanged. -/
def decrypt_value (encryptionKey : String) (blob : List EByte) : Option String :=
  if blob = [] then some ""
  else fernetDecrypt encryptionKey (blob.take 16) (blob.drop 16)

/-- Claim values of a JWT payload: the payloads built by this codebase hold
strings and integer timestamps or row ids (datetimes are serialised by the
JWT library as integer POSIX timestamps). -/
inductive CVal where
  | s (v : String)
  | n (v : Nat)
deriving DecidableEq, Repr

/-- JWT payload: a Python dict of claims, as an association list. -/
abbrev Claims := List (String × CVal)

/-- Dictionary lookup `payload.get(k)`. -/
def getClaim (c : Claims) (k : String) : Option CVal :=
  (c.find? (fun p => p.1 == k)).map (·.2)

/-- Ideal HMAC-signed JWT: `jwt.encode(payload, secret, algorithm="HS256")`
is idealised as the pair of payload and signing secret; a signature check is
equality of the secret. -/
structure Jwt where
  claims : Claims
  secret : String
deriving DecidableEq, Repr

/-- Model of `jwt.encode(payload, secret, algorithm="HS256")`. -/
def jwt_encode (c : Claims) (secret : String) : Jwt := ⟨c, secret⟩

/-- Error kinds of the PyJWT `decode` call as caught by this codebase. -/
inductive JwtError where
  | expiredSignature
  | invalidIssuer
  | invalidAudience
  | invalidToken
deriving DecidableEq, Repr

/-- Expiry check of PyJWT `decode`: an `exp` claim at or before the current
time raises `ExpiredSignatureError`. -/
def checkExp (c : Claims) (now : Nat) : Except JwtError Unit :=
  match getClaim c "exp" with
  | some (.n e) => if e ≤ now then .error .expiredSignature else .ok ()
  | _ => .ok ()

/-- Audience check of PyJWT `decode`: when an expected audience is supplied
the `aud` claim must be present (missing-claim errors are a subclass of
`InvalidTokenError`) and equal to it; when none is supplied a present `aud`
claim is itself an `InvalidAudienceError`. -/
def checkAud (c : Claims) (audience : Option String) : Except JwtError Unit :=
  match audience with
  | some a =>
      match getClaim c "aud" with
      | some (.s v) => if v = a then .ok () else .error .invalidAudience
      | some _ => .error .invalidAudience
      | none => .error .invalidToken
  | none =>
      match getClaim c "aud" with
      | some _ => .error .invalidAudience
      | none => .ok ()

/-- Issuer check of PyJWT `decode`: only performed when an expected issuer
is supplied. -/
def checkIss (c : Claims) (issuer : Option String) : Except JwtError Unit :=
  match issuer with
  | some i =>
      match getClaim c "iss" with
      | some (.s v) => if v = i then .ok () else .error .invalidIssuer
      | some _ => .error .invalidIssuer
      | none => .error .invalidToken
  | none => .ok ()

/-- Model of `jwt.decode(token, secret, algorithms=["HS256"], ...)`: the
signature is checked first, then expiry, audience and issuer. -/
def jwt_decode (t : Jwt) (secret : String) (now : Nat)
    (issuer audience : Option String) : Except JwtError Claims :=
  if t.secret = secret then
    match checkExp t.claims now with
    | .error e => .error e
    | .ok _ =>
      match checkAud t.claims audience with
      | .error e => .error e
      | .ok _ =>
        match checkIss t.claims issuer with
        | .error e => .error e
        | .ok _ => .ok t.claims
  else .error .invalidToken

/-- `JWT_EXPIRATION_DAYS` of `auth_oauth.py`. -/
def JWT_EXPIRATION_DAYS : Nat := 7

/-- Model of `create_jwt_token` (`auth_oauth.py` lines 42 to 52).  The module
global `JWT_SECRET` and the current time `datetime.utcnow()` (in seconds)
are passed as parameters. -/
def create_jwt_token (secret : String) (now : Nat) (user_id : String) : Jwt :=
  jwt_encode
    [("user_id", .s user_id),
     ("exp", .n (now + JWT_EXPIRATION_DAYS * 86400)),
     ("iat", .n now),
     ("iss", .s "space-biology-engine"),
     ("aud", .s "space-biology-frontend")] secret

/-- Model of `verify_jwt_token` (`auth_oauth.py` lines 55 to 73); errors are
the `detail` strings of the `HTTPException(status_code=401)` raised for each
PyJWT error kind. -/
def verify_jwt_token (secret : String) (now : Nat) (token : Jwt) : Except String Claims :=
  match jwt_decode token secret now (some "space-biology-engine") (some "space-biology-frontend") with
  | .ok p => .ok p
  | .error .expiredSignature => .error "Token has expired"
  | .error .invalidIssuer => .error "Invalid token issuer"
  | .error .invalidAudience => .error "Invalid token audience"
  | .error .invalidToken => .error "Invalid token"

/-- Ideal `hashlib.pbkdf2_hmac("sha256", password, salt, iterations).hex()`:
a collision-free keyed digest, represented by a tagged encoding of its
inputs. -/
def pbkdf2_hmac_sha256 (password salt : String) (iterations : Nat) : String :=
  "pbkdf2-sha256:" ++ toString iterations ++ ":" ++ salt ++ ":" ++ password

/-- Model of `hash_password` (`logic/auth.py` lines 50 to 56) on the branch
where a salt is supplied; when called with `salt=None` the source first
draws `salt = secrets.token_hex(16)` and proceeds identically, so the fresh
salt is a parameter here. -/
def hash_password (password : String) (salt : String) : String × String :=
  (pbkdf2_hmac_sha256 password salt 100000, salt)

/-- Model of `verify_password` (`logic/auth.py` lines 58 to 61). -/
def verify_password (password password_hash salt : String) : Bool :=
  (hash_password password salt).1 == password_hash

/-- Row of the sqlite `users` table (`logic/auth.py`). -/
structure UserRow where
  id : Nat
  username : String
  email : String
  password_hash : String
  salt : String
  is_active : Bool
deriving DecidableEq, Repr

/-- Row of the sqlite `user_sessions` table.  `token_hash` is the SHA-256
fingerprint of the issued token, idealised as an injective digest and hence
represented by the token value it fingerprints. -/
structure SessionRow where
  id : Nat
  user_id : Nat
  token_hash : Jwt
  expires_at : Nat
  is_active : Bool
deriving DecidableEq, Repr

/-- The sqlite database state of `logic/auth.py`. -/
structure AuthDB where
  users : List UserRow
  sessions : List SessionRow
  nextSessionId : Nat
deriving DecidableEq, Repr

/-- Result dict of `authenticate_user`: either success carrying the token
and the user sub-dict, or failure carrying the `message` value. -/
inductive AuthResult where
  | success (token : Jwt) (userId : Nat) (username email : String)
  | failure (message : String)
deriving DecidableEq, Repr

/-- Result dict of `verify_token`. -/
inductive VerifyResult where
  | success (payload : Claims)
  | failure (message : String)
deriving DecidableEq, Repr

/-- The lookup `SELECT ... FROM users WHERE username = ? OR email = ?` with
both parameters bound to the identifier; `fetchone` returns the first
matching row. -/
def findUserByIdentifier (users : List UserRow) (identifier : String) : Option UserRow :=
  users.find? (fun u => u.username == identifier || u.email == identifier)

/-- `JWT_EXPIRATION_HOURS` of `logic/auth.py`. -/
def JWT_EXPIRATION_HOURS : Nat := 24

/-- Model of `authenticate_user` (`logic/auth.py` lines 98 to 159).  The
module global `JWT_SECRET` and the current time are parameters; on success
a session row holding the token fingerprint is inserted. -/
def authenticate_user (db : AuthDB) (secret : String) (now : Nat)
    (username password : String) : AuthResult × AuthDB :=
  match findUserByIdentifier db.users username with
  | none => (.failure "Invalid credentials", db)
  | some u =>
    if u.is_active = false then (.failure "Account is deactivated", db)
    else if verify_password password u.password_hash u.salt = false then
      (.failure "Invalid credentials", db)
    else
      let payload : Claims :=
        [("user_id", .n u.id), ("username", .s u.username), ("email", .s u.email),
         ("exp", .n (now + JWT_EXPIRATION_HOURS * 3600)), ("iat", .n now)]
      let token := jwt_encode payload secret
      let sess : SessionRow :=
        ⟨db.nextSessionId, u.id, token, now + JWT_EXPIRATION_HOURS * 3600, true⟩
      (.success token u.id u.username u.email,
       ⟨db.users, db.sessions ++ [sess], db.nextSessionId + 1⟩)

/-- Model of `verify_token` (`logic/auth.py` lines 161 to 196): first the
pure JWT decode (no issuer or audience expected), then the session-registry
check `WHERE us.token_hash = ? AND us.is_active = 1 AND us.expires_at > ?`
joined against the owning user row. -/
def verify_token (db : AuthDB) (secret : String) (now : Nat) (token : Jwt) : VerifyResult :=
  match jwt_decode token secret now none none with
  | .error .expiredSignature => .failure "Token has expired"
  | .error _ => .failure "Invalid token"
  | .ok payload =>
    match db.sessions.find? (fun s =>
        s.token_hash == token && s.is_active && decide (now < s.expires_at) &&
        (db.users.find? (fun u => u.id == s.user_id)).isSome) with
    | none => .failure "Invalid or expired token"
    | some _ => .success payload

/-- Model of `logout_user` (`logic/auth.py` lines 198 to 217):
`UPDATE user_sessions SET is_active = 0 WHERE token_hash = ? AND is_active = 1`. -/
def logout_user (db : AuthDB) (token : Jwt) : (Bool × String) × AuthDB :=
  (⟨true, "Logged out successfully"⟩,
   ⟨db.users,
    db.sessions.map (fun s =>
      if s.token_hash == token && s.is_active then { s with is_active := false } else s),
    db.nextSessionId⟩)

/-- Input profile dict of `create_or_update_user` as built by the OAuth
callback in `auth_oauth.py`: the provider account id is an int, the optional
fields may be absent. -/
structure GithubData where
  id : Int
  email : Option String
  name : Option String
  avatar_url : Option String
  login : Option String
deriving DecidableEq, Repr

/-- Document of the MongoDB `users` collection (`db.py`).  `mid` is the
`_id` field; `access_token` holds the encrypted blob. -/
structure MUser where
  mid : String
  github_id : String
  email : Option String
  name : Option String
  avatar_url : Option String
  username : Option String
  access_token : List EByte
  created_at : Nat
  updated_at : Nat
  last_login : Nat
  is_active : Bool
deriving DecidableEq, Repr

/-- `find_one` on the `users` collection keyed by `github_id`. -/
def find_one_github (store : List MUser) (gid : String) : Option MUser :=
  store.find? (fun u => u.github_id == gid)

/-- `find_one` on the `users` collection keyed by `_id`. -/
def find_one_id (store : List MUser) (i : String) : Option MUser :=
  store.find? (fun u => u.mid == i)

/-- `update_one({_id: i}, {$set: ...})`: applies the field update `f` to the
first document whose `_id` matches. -/
def update_one_set (store : List MUser) (i : String) (f : MUser → MUser) : List MUser :=
  match store with
  | [] => []
  | u :: rest => if u.mid == i then f u :: rest else u :: update_one_set rest i f

/-- The `user_data` dict built by `create_or_update_user`, as the `$set`
update it induces on an existing document: every mutable field is
overwritten (the secret re-encrypted afresh), while `_id` and `created_at`
are not in the dict and stay untouched. -/
def userDataSet (gd : GithubData) (enc : List EByte) (now : Nat) (u : MUser) : MUser :=
  { u with github_id := toString gd.id, email := gd.email, name := gd.name,
           avatar_url := gd.avatar_url, username := gd.login, access_token := enc,
           updated_at := now, last_login := now, is_active := true }

/-- The `user_data` dict as inserted for a never-seen `github_id`: the same
fields plus the freshly generated `_id` and `created_at = now`. -/
def insertedUserDoc (gd : GithubData) (enc : List EByte) (newId : String) (now : Nat) : MUser :=
  { mid := newId, github_id := toString gd.id, email := gd.email, name := gd.name,
    avatar_url := gd.avatar_url, username := gd.login, access_token := enc,
    created_at := now, updated_at := now, last_login := now, is_active := true }

/-- Model of `create_or_update_user` (`db.py` lines 133 to 168).  The
encryption master secret, the fresh encryption salt, the freshly generated
`str(ObjectId())` and the current time are parameters.  Returns the user
dict the source returns (re-read by `_id` after update, the inserted dict
on create) together with the updated collection. -/
def create_or_update_user (store : List MUser) (encryptionKey : String) (encSalt : List Nat)
    (newId : String) (now : Nat) (gd : GithubData) (access_token : String) :
    Option MUser × List MUser :=
  match find_one_github store (toString gd.id) with
  | some existing =>
      (find_one_id (update_one_set store existing.mid
          (userDataSet gd (encrypt_value encryptionKey encSalt access_token) now)) existing.mid,
       update_one_set store existing.mid
          (userDataSet gd (encrypt_value encryptionKey encSalt access_token) now))
  | none =>
      (some (insertedUserDoc gd (encrypt_value encryptionKey encSalt access_token) newId now),
       store ++ [insertedUserDoc gd (encrypt_value encryptionKey encSalt access_token) newId now])

/-- Process environment as a lookup table; `os.getenv`. -/
abbrev Env := List (String × String)

/-- Model of `os.getenv(k)`. -/
def getenv (env : Env) (k : String) : Option String :=
  (env.find? (fun p => p.1 == k)).map (·.2)

/-- Module initialisation of the signing secret in `auth_oauth.py` lines 18
to 20: `JWT_SECRET = os.getenv("JWT_SECRET")` followed by
`if not JWT_SECRET: raise RuntimeError(...)` — absence (or emptiness) of the
configuration is a fatal startup error. -/
def oauth_jwt_secret_startup (env : Env) : Except String String :=
  match getenv env "JWT_SECRET" with
  | none => .error "JWT_SECRET environment variable must be set!"
  | some s =>
      if s = "" then .error "JWT_SECRET environment variable must be set!" else .ok s

/-- Module initialisation of the signing secret in `logic/auth.py` line 11:
`JWT_SECRET = os.getenv("JWT_SECRET", "your-secret-key-change-in-production")`
— a hard-coded default literal is used when the configuration is absent and
startup always succeeds. -/
def logic_auth_jwt_secret (env : Env) : String :=
  (getenv env "JWT_SECRET").getD "your-secret-key-change-in-production"

/-- Concrete 16-byte salt used by witnesses. -/
def sampleSalt : List Nat := List.replicate 16 0

/-- Concrete active local account used by witnesses. -/
def sampleUser : UserRow :=
  ⟨1, "bob", "bob@x.com", (hash_password "secret1" "s0").1, "s0", true⟩

/-- Concrete deactivated local account used by witnesses. -/
def sampleUser2 : UserRow :=
  ⟨2, "carol", "carol@x.com", (hash_password "pw2" "s1").1, "s1", false⟩

/-- Concrete password-store database used by witnesses. -/
def sampleDB : AuthDB := ⟨[sampleUser, sampleUser2], [], 1⟩

/-- Payload of the token issued by `authenticate_user` on `sampleDB` for
bob at time 0. -/
def sampleClaims : Claims :=
  [("user_id", .n 1), ("username", .s "bob"), ("email", .s "bob@x.com"),
   ("exp", .n 86400), ("iat", .n 0)]

/-- Token issued by `authenticate_user` on `sampleDB` for bob at time 0
under secret "sek". -/
def sampleToken : Jwt := jwt_encode sampleClaims "sek"

/-- Concrete provider profile used by witnesses. -/
def sampleGd : GithubData := ⟨77, some "e@x.com", some "Handle Name", none, some "handle"⟩

/-- Concrete pre-existing MongoDB user document used by witnesses. -/
def sampleMUser : MUser :=
  { mid := "m1", github_id := "77", email := none, name := none, avatar_url := none,
    username := none, access_token := [], created_at := 3, updated_at := 3,
    last_login := 3, is_active := true }

theorem ctLen_ge (m : String) : 73 ≤ ctLen m := by
  unfold ctLen; omega

theorem fernetEncrypt_length (secret : String) (salt : List Nat) (m : String) :
    (fernetEncrypt secret salt m).length = ctLen m := by
  simp [fernetEncrypt]

theorem fernetEncrypt_getElem (secret : String) (salt : List Nat) (m : String)
    (i : Nat) (h : i < (fernetEncrypt secret salt m).length) :
    (fernetEncrypt secret salt m)[i] = EByte.ct secret salt m i (ctLen m) := by
  simp [fernetEncrypt]

theorem fernetEncrypt_cons (secret : String) (salt : List Nat) (m : String) :
    ∃ rest, fernetEncrypt secret salt m = EByte.ct secret salt m 0 (ctLen m) :: rest := by
  have h1 : ctLen m = (ctLen m - 1) + 1 := by have := ctLen_ge m; omega
  refine ⟨(List.range (ctLen m - 1)).map (fun i => EByte.ct secret salt m (i + 1) (ctLen m)), ?_⟩
  unfold fernetEncrypt
  rw [h1, List.range_succ_eq_map]
  simp [Function.comp]

theorem fernetDecrypt_fernetEncrypt (secret : String) (salt : List Nat) (m : String) :
    fernetDecrypt secret (salt.map EByte.raw) (fernetEncrypt secret salt m) = some m := by
  obtain ⟨rest, h⟩ := fernetEncrypt_cons secret salt m
  rw [h]
  show (if secret = secret ∧ salt.map EByte.raw = salt.map EByte.raw ∧
      EByte.ct secret salt m 0 (ctLen m) :: rest = fernetEncrypt secret salt m
      then some m else none) = some m
  rw [if_pos ⟨rfl, rfl, h.symm⟩]

theorem fernetDecrypt_eq_some_iff (secret : String) (saltB bs : List EByte) (m : String) :
    fernetDecrypt secret saltB bs = some m ↔
      ∃ salt, saltB = salt.map EByte.raw ∧ bs = fernetEncrypt secret salt m := by
  constructor
  · intro h
    cases bs with
    | nil => simp [fernetDecrypt] at h
    | cons b rest =>
      cases b with
      | raw n => simp [fernetDecrypt] at h
      | ct sec sal m' idx len =>
        cases idx with
        | succ k => simp [fernetDecrypt] at h
        | zero =>
          simp only [fernetDecrypt] at h
          split at h
          · rename_i hc
            obtain ⟨h1, h2, h3⟩ := hc
            obtain rfl : m' = m := by injection h
            subst h1
            exact ⟨sal, h2, h3⟩
          · exact absurd h (by simp)
  · rintro ⟨salt, rfl, rfl⟩
    exact fernetDecrypt_fernetEncrypt secret salt m

theorem fernetEncrypt_inj {s1 s2 : String} {sa1 sa2 : List Nat} {m1 m2 : String}
    (h : fernetEncrypt s1 sa1 m1 = fernetEncrypt s2 sa2 m2) :
    s1 = s2 ∧ sa1 = sa2 ∧ m1 = m2 := by
  obtain ⟨r1, h1⟩ := fernetEncrypt_cons s1 sa1 m1
  obtain ⟨r2, h2⟩ := fernetEncrypt_cons s2 sa2 m2
  rw [h1, h2] at h
  injection h with hhd _
  injection hhd with e1 e2 e3 _ _
  exact ⟨e1, e2, e3⟩

theorem ebyte_raw_injective : Function.Injective EByte.raw := by
  intro a b h
  injection h

theorem fernetDecrypt_nil (secret : String) (saltB : List EByte) :
    fernetDecrypt secret saltB [] = none := rfl

/-- C1: for every non-empty plaintext string, decrypting the blob returned
by `encrypt_value` under the same master secret returns the plaintext.  The
hypotheses record the facts of the calling code: the salt drawn by
`secrets.token_bytes(16)` has 16 bytes, and the plaintext is non-empty. -/
theorem C1_decrypt_encrypt_roundtrip (key : String) (salt : List Nat) (value : String)
    (hs : salt.length = 16) (hv : value ≠ "") :
    decrypt_value key (encrypt_value key salt value) = some value := by
  unfold encrypt_value
  rw [if_neg hv]
  unfold decrypt_value
  have hlen : (salt.map EByte.raw).length = 16 := by simp [hs]
  rw [if_neg ?hne]
  case hne =>
    intro h
    rw [List.append_eq_nil] at h
    have := congrArg List.length h.1
    rw [hlen] at this
    simp at this
  rw [List.take_left' hlen, List.drop_left' hlen]
  exact fernetDecrypt_fernetEncrypt key salt value

/-- C1 witness at a concrete input. -/
theorem C1_witness :
    decrypt_value "k" (encrypt_value "k" sampleSalt "a") = some "a" :=
  C1_decrypt_encrypt_roundtrip "k" sampleSalt "a" (by decide) (by decide)

/-- C9: for the empty string input, `encrypt_value` returns it unchanged
(the empty blob, written without invoking the cipher and independent of the
drawn salt), and the empty blob round-trips through `decrypt_value` to the
empty string. -/
theorem C9_empty_value_roundtrip (key : String) (salt : List Nat) :
    encrypt_value key salt "" = [] ∧
    decrypt_value key (encrypt_value key salt "") = some "" := by
  refine ⟨by simp [encrypt_value], ?_⟩
  simp [encrypt_value, decrypt_value]

/-- C3: decryption fails (raises the wrapped `ValueError`, modelled as
`none`) and never returns a plaintext on every tampered blob: any proper
non-empty truncation of a genuine blob, any blob whose 16-byte salt region
was altered, any blob with a single corrupted ciphertext byte, and any
genuine blob decrypted under a different master secret.  (The empty blob is
excluded: it is the documented deliberate exemption for absent secrets.) -/
theorem C3_decrypt_fails_on_tampered_or_foreign_blobs
    (key key2 : String) (salt : List Nat) (value : String)
    (hs : salt.length = 16) (hv : value ≠ "") :
    (∀ n, 0 < n → n < (encrypt_value key salt value).length →
       decrypt_value key ((encrypt_value key salt value).take n) = none) ∧
    (∀ saltB : List EByte, saltB.length = 16 → saltB ≠ salt.map EByte.raw →
       decrypt_value key (saltB ++ fernetEncrypt key salt value) = none) ∧
    (∀ j x, ∀ h : j < (fernetEncrypt key salt value).length,
       x ≠ (fernetEncrypt key salt value).get ⟨j, h⟩ →
       decrypt_value key (salt.map EByte.raw ++ (fernetEncrypt key salt value).set j x) = none) ∧
    (key2 ≠ key → decrypt_value key2 (encrypt_value key salt value) = none) := by
  have hlen : (salt.map EByte.raw).length = 16 := by simp [hs]
  have hctlen := fernetEncrypt_length key salt value
  have hge := ctLen_ge value
  refine ⟨?trunc, ?saltcorr, ?ctcorr, ?foreign⟩
  case trunc =>
    intro n hn hnlt
    unfold encrypt_value at hnlt ⊢
    rw [if_neg hv] at hnlt ⊢
    have hbloblen : (salt.map EByte.raw ++ fernetEncrypt key salt value).length =
        16 + ctLen value := by
      simp [hlen, hctlen]
    unfold decrypt_value
    rw [if_neg ?tne]
    case tne =>
      intro h
      have := congrArg List.length h
      rw [List.length_take, hbloblen] at this
      simp at this
      omega
    rw [List.take_append_eq_append_take] at *
    rw [hlen]
    by_cases h16 : n ≤ 16
    · have hz : n - 16 = 0 := by omega
      rw [hz, List.take_zero, List.append_nil]
      have htk : ((salt.map EByte.raw).take n).length = n := by
        rw [List.length_take]; omega
      rw [List.take_take, List.drop_eq_nil_iff.mpr (by rw [htk]; omega)]
      · exact fernetDecrypt_nil _ _
    · have h16' : 16 ≤ n := by omega
      have hS : (salt.map EByte.raw).take n = salt.map EByte.raw :=
        List.take_of_length_le (by omega)
      rw [hS]
      rw [List.take_left' hlen, List.drop_left' hlen]
      set k := n - 16 with hk
      have hklt : k < ctLen value := by
        rw [hbloblen] at hnlt; omega
      have hkpos : 0 < k ∨ k = 0 := by omega
      rcases hkpos with hkpos | hk0
      · cases hfd : fernetDecrypt key (salt.map EByte.raw)
            ((fernetEncrypt key salt value).take k) with
        | none => rfl
        | some m =>
          exfalso
          obtain ⟨salt2, _, hY⟩ := (fernetDecrypt_eq_some_iff _ _ _ _).mp hfd
          have hlk : ((fernetEncrypt key salt value).take k).length = k := by
            rw [List.length_take]; omega
          have h0lt : 0 < ((fernetEncrypt key salt value).take k).length := by omega
          have hh3 := List.getElem_of_eq hY h0lt
          simp only [List.getElem_take] at hh3
          rw [fernetEncrypt_getElem, fernetEncrypt_getElem] at hh3
          obtain ⟨-, -, -, -, hq⟩ := (EByte.ct.injEq _ _ _ _ _ _ _ _ _ _).mp hh3
          have := congrArg List.length hY
          rw [hlk, fernetEncrypt_length] at this
          omega
      · exfalso; omega
  case saltcorr =>
    intro saltB hb hne
    unfold decrypt_value
    have hb' : (saltB ++ fernetEncrypt key salt value).length = 16 + ctLen value := by
      simp [hb, hctlen]
    rw [if_neg (List.ne_nil_of_length_pos (by omega))]
    rw [List.take_left' hb, List.drop_left' hb]
    cases hfd : fernetDecrypt key saltB (fernetEncrypt key salt value) with
    | none => rfl
    | some m =>
      exfalso
      obtain ⟨salt2, hX, hY⟩ := (fernetDecrypt_eq_some_iff _ _ _ _).mp hfd
      obtain ⟨-, rfl, -⟩ := fernetEncrypt_inj hY
      exact hne hX
  case ctcorr =>
    intro j x h hx
    unfold decrypt_value
    have hsetlen : ((fernetEncrypt key salt value).set j x).length = ctLen value := by
      rw [List.length_set, hctlen]
    rw [if_neg ?cne]
    case cne =>
      intro hcontra
      rw [List.append_eq_nil] at hcontra
      have := congrArg List.length hcontra.1
      rw [hlen] at this
      simp at this
    rw [List.take_left' hlen, List.drop_left' hlen]
    cases hfd : fernetDecrypt key (salt.map EByte.raw)
        ((fernetEncrypt key salt value).set j x) with
    | none => rfl
    | some m2 =>
      exfalso
      obtain ⟨salt2, hX, hY⟩ := (fernetDecrypt_eq_some_iff _ _ _ _).mp hfd
      obtain rfl : salt = salt2 := List.map_injective_iff.mpr ebyte_raw_injective hX
      have hLm2 : ctLen m2 = ctLen value := by
        have := congrArg List.length hY
        rw [hsetlen, fernetEncrypt_length] at this
        omega
      have hjlt : j < ctLen value := by rw [hctlen] at h; omega
      set i : Nat := if j = 0 then 1 else 0 with hi
      have hij : i ≠ j := by
        rw [hi]; split <;> omega
      have hilt : i < ctLen value := by
        rw [hi]; split <;> omega
      have hgi := List.getElem_of_eq hY
        (show i < ((fernetEncrypt key salt value).set j x).length by rw [hsetlen]; omega)
      rw [List.getElem_set_ne (fun hc => hij hc.symm)] at hgi
      rw [fernetEncrypt_getElem, fernetEncrypt_getElem] at hgi
      obtain ⟨-, -, hm2, -, -⟩ := (EByte.ct.injEq _ _ _ _ _ _ _ _ _ _).mp hgi
      subst hm2
      have hgj := List.getElem_of_eq hY
        (show j < ((fernetEncrypt key salt value).set j x).length by rw [hsetlen]; omega)
      rw [List.getElem_set_self] at hgj
      rw [fernetEncrypt_getElem] at hgj
      apply hx
      rw [List.get_eq_getElem, fernetEncrypt_getElem]
      exact hgj
  case foreign =>
    intro hk
    unfold encrypt_value decrypt_value
    rw [if_neg hv]
    rw [if_neg ?fne]
    case fne =>
      intro hcontra
      rw [List.append_eq_nil] at hcontra
      have := congrArg List.length hcontra.1
      rw [hlen] at this
      simp at this
    rw [List.take_left' hlen, List.drop_left' hlen]
    cases hfd : fernetDecrypt key2 (salt.map EByte.raw) (fernetEncrypt key salt value) with
    | none => rfl
    | some m =>
      exfalso
      obtain ⟨salt2, hX, hY⟩ := (fernetDecrypt_eq_some_iff _ _ _ _).mp hfd
      obtain ⟨rfl, -, -⟩ := fernetEncrypt_inj hY
      exact hk rfl

/-- C3 witness at concrete inputs: a one-byte truncation and a foreign
master secret. -/
theorem C3_witness :
    decrypt_value "k" ((encrypt_value "k" sampleSalt "a").take 1) = none ∧
    decrypt_value "k2" (encrypt_value "k" sampleSalt "a") = none := by
  have h := C3_decrypt_fails_on_tampered_or_foreign_blobs "k" "k2" sampleSalt "a"
    (by decide) (by decide)
  exact ⟨h.1 1 (by decide) (by decide), h.2.2.2 (by decide)⟩

/-- C4: for every subject identifier, verifying a token immediately after it
was issued for that identifier succeeds and returns the identifier as the
subject (the `user_id` claim), the configured fixed issuer and audience
being accepted. -/
theorem C4_verify_after_issue (secret user_id : String) (now : Nat) :
    ∃ p, verify_jwt_token secret now (create_jwt_token secret now user_id) = .ok p ∧
      getClaim p "user_id" = some (.s user_id) := by
  refine ⟨(create_jwt_token secret now user_id).claims, ?_, ?_⟩
  · simp [verify_jwt_token, jwt_decode, checkExp, checkAud, checkIss,
      create_jwt_token, jwt_encode, getClaim, List.find?, JWT_EXPIRATION_DAYS]
  · simp [create_jwt_token, jwt_encode, getClaim, List.find?]


theorem authenticate_user_success_inv (db : AuthDB) (secret : String) (now : Nat)
    (identifier password : String) (token : Jwt) (uid : Nat) (un em : String) (db2 : AuthDB)
    (hauth : authenticate_user db secret now identifier password = (.success token uid un em, db2)) :
    token = jwt_encode [("user_id", .n uid), ("username", .s un), ("email", .s em),
        ("exp", .n (now + JWT_EXPIRATION_HOURS * 3600)), ("iat", .n now)] secret ∧
    db2 = ⟨db.users,
      db.sessions ++ [⟨db.nextSessionId, uid, token, now + JWT_EXPIRATION_HOURS * 3600, true⟩],
      db.nextSessionId + 1⟩ := by
  unfold authenticate_user at hauth
  split at hauth
  · simp at hauth
  · rename_i u hfind
    split at hauth
    · simp at hauth
    · split at hauth
      · simp at hauth
      · simp only [Prod.mk.injEq, AuthResult.success.injEq] at hauth
        obtain ⟨⟨htok, huid, hun, hem⟩, hdb⟩ := hauth
        subst huid
        subst hun
        subst hem
        subst htok
        subst hdb
        exact ⟨rfl, rfl⟩

theorem verify_token_revoked_case (db : AuthDB) (secret : String) (now : Nat) (token : Jwt)
    (hdec : jwt_decode token secret now none none = .ok token.claims)
    (hnone : db.sessions.find? (fun s =>
        s.token_hash == token && s.is_active && decide (now < s.expires_at) &&
        (db.users.find? (fun u => u.id == s.user_id)).isSome) = none) :
    verify_token db secret now token = .failure "Invalid or expired token" := by
  unfold verify_token
  rw [hdec, hnone]

/-- C2: after a successful password authentication issues a token, logging
out deactivates every active session row fingerprinting that token, so a
subsequent `verify_token` fails with the revoked-session result (message
"Invalid or expired token", the `SessionRevoked` case of the spec) — even
though the pure JWT decode alone still accepts the token until its natural
expiry, as the second conjunct states. -/
theorem C2_logout_revokes_session (db db2 : AuthDB) (secret : String) (now now2 : Nat)
    (identifier password : String) (token : Jwt) (uid : Nat) (un em : String)
    (hauth : authenticate_user db secret now identifier password = (.success token uid un em, db2))
    (hnow : now2 < now + JWT_EXPIRATION_HOURS * 3600) :
    verify_token (logout_user db2 token).2 secret now2 token = .failure "Invalid or expired token" ∧
    jwt_decode token secret now2 none none = .ok token.claims := by
  obtain ⟨htok, hdb2⟩ := authenticate_user_success_inv db secret now identifier password
    token uid un em db2 hauth
  subst hdb2
  subst htok
  have hdec : jwt_decode (jwt_encode [("user_id", .n uid), ("username", .s un), ("email", .s em),
      ("exp", .n (now + JWT_EXPIRATION_HOURS * 3600)), ("iat", .n now)] secret) secret now2
      none none = .ok [("user_id", .n uid), ("username", .s un), ("email", .s em),
      ("exp", .n (now + JWT_EXPIRATION_HOURS * 3600)), ("iat", .n now)] := by
    simp [jwt_decode, jwt_encode, checkExp, checkAud, checkIss, getClaim, List.find?]
    rw [if_neg (by omega)]
  refine ⟨verify_token_revoked_case _ _ _ _ hdec ?_, hdec⟩
  rw [List.find?_eq_none]
  intro s hs
  simp only [logout_user, List.mem_map] at hs
  obtain ⟨s0, hs0, heq⟩ := hs
  subst heq
  by_cases hm : (s0.token_hash == jwt_encode [("user_id", .n uid), ("username", .s un),
      ("email", .s em), ("exp", .n (now + JWT_EXPIRATION_HOURS * 3600)), ("iat", .n now)]
      secret && s0.is_active) = true
  · rw [if_pos hm]
    simp
  · rw [if_neg hm]
    intro hcontra
    apply hm
    cases hax : s0.token_hash == jwt_encode [("user_id", .n uid), ("username", .s un),
        ("email", .s em), ("exp", .n (now + JWT_EXPIRATION_HOURS * 3600)), ("iat", .n now)]
        secret && s0.is_active
    · rw [hax] at hcontra
      simp at hcontra
    · rfl

/-- C2 witness at a concrete input. -/
theorem C2_witness :
    verify_token (logout_user ⟨[sampleUser, sampleUser2],
      [⟨1, 1, sampleToken, 86400, true⟩], 2⟩ sampleToken).2 "sek" 1 sampleToken =
      .failure "Invalid or expired token" ∧
    jwt_decode sampleToken "sek" 1 none none = .ok sampleToken.claims :=
  C2_logout_revokes_session sampleDB ⟨[sampleUser, sampleUser2],
    [⟨1, 1, sampleToken, 86400, true⟩], 2⟩ "sek" 0 1 "bob" "secret1" sampleToken 1
    "bob" "bob@x.com" (by decide) (by decide)

/-- C7: on every database state, authentication with a wrong password for an
existing active account and authentication with a nonexistent identifier
fail with the very same result — the failure dict with message "Invalid
credentials" and an unchanged database — so the two runs are
indistinguishable to the caller; the deactivated-account case is the sole
deliberate exception, answering "Account is deactivated". -/
theorem C7_uniform_invalid_credentials (db : AuthDB) (secret : String) (now : Nat) :
    (∀ identifier password u, findUserByIdentifier db.users identifier = some u →
       u.is_active = true → verify_password password u.password_hash u.salt = false →
       authenticate_user db secret now identifier password =
         (.failure "Invalid credentials", db)) ∧
    (∀ identifier password, findUserByIdentifier db.users identifier = none →
       authenticate_user db secret now identifier password =
         (.failure "Invalid credentials", db)) ∧
    (∀ identifier password u, findUserByIdentifier db.users identifier = some u →
       u.is_active = false →
       authenticate_user db secret now identifier password =
         (.failure "Account is deactivated", db)) := by
  refine ⟨?wrongpw, ?nouser, ?inactive⟩
  case wrongpw =>
    intro identifier password u hfind hact hvp
    simp [authenticate_user, hfind, hact, hvp]
  case nouser =>
    intro identifier password hfind
    simp [authenticate_user, hfind]
  case inactive =>
    intro identifier password u hfind hact
    simp [authenticate_user, hfind, hact]

/-- C7 witness at concrete inputs: wrong password for bob and a nonexistent
identifier produce identical results; carol is deactivated. -/
theorem C7_witness :
    authenticate_user sampleDB "sek" 0 "bob" "wrongpw" =
      (.failure "Invalid credentials", sampleDB) ∧
    authenticate_user sampleDB "sek" 0 "nonexistent" "anything" =
      (.failure "Invalid credentials", sampleDB) ∧
    authenticate_user sampleDB "sek" 0 "carol" "pw2" =
      (.failure "Account is deactivated", sampleDB) :=
  ⟨(C7_uniform_invalid_credentials sampleDB "sek" 0).1 "bob" "wrongpw" sampleUser
      (by decide) (by decide) (by decide),
   (C7_uniform_invalid_credentials sampleDB "sek" 0).2.1 "nonexistent" "anything" (by decide),
   (C7_uniform_invalid_credentials sampleDB "sek" 0).2.2 "carol" "pw2" sampleUser2
      (by decide) (by decide)⟩

/-- C10: `hash_password` is a pure deterministic function of password and
salt, `verify_password` accepts the stored pair produced by `hash_password`
for the original password, and rejects every hash value other than the
PBKDF2 digest of the candidate password under the stored salt. -/
theorem C10_hash_verify_password (p s h : String) :
    verify_password p (hash_password p s).1 s = true ∧
    (h ≠ pbkdf2_hmac_sha256 p s 100000 → verify_password p h s = false) := by
  constructor
  · simp [verify_password, hash_password]
  · intro hne
    have hne2 : pbkdf2_hmac_sha256 p s 100000 ≠ h := fun hc => hne hc.symm
    simp [verify_password, hash_password, hne2]

/-- C10 witness at a concrete input. -/
theorem C10_witness :
    verify_password "pw" (hash_password "pw" "salty").1 "salty" = true ∧
    verify_password "pw" "nothash" "salty" = false :=
  ⟨(C10_hash_verify_password "pw" "salty" "nothash").1,
   (C10_hash_verify_password "pw" "salty" "nothash").2 (by decide)⟩

/-- C6 counterexample: the token issued by a concrete successful password
authentication carries no issuer claim and no audience claim at all,
refuting the claim that every issued token of either variant carries the
fixed issuer and audience strings. -/
theorem C6_counterexample :
    (authenticate_user sampleDB "sek" 0 "bob" "secret1").1 =
      .success sampleToken 1 "bob" "bob@x.com" ∧
    getClaim sampleToken.claims "iss" = none ∧
    getClaim sampleToken.claims "aud" = none := by decide

/-- C6 amended: both token variants are signed by the same HS256 mechanism
with the signing secret, and both carry the subject id (`user_id`), `iat`
and `exp`, with a 7-day TTL for the OAuth variant and 24 hours for the
password variant; but only the OAuth variant carries the fixed issuer and
audience claims — the password variant has neither, carrying `username` and
`email` claims instead. -/
theorem C6_amended_token_variants (secret oid : String) (now : Nat) (db : AuthDB)
    (identifier password : String) :
    (create_jwt_token secret now oid =
       jwt_encode (create_jwt_token secret now oid).claims secret ∧
     getClaim (create_jwt_token secret now oid).claims "user_id" = some (.s oid) ∧
     getClaim (create_jwt_token secret now oid).claims "iat" = some (.n now) ∧
     getClaim (create_jwt_token secret now oid).claims "exp" = some (.n (now + 7 * 86400)) ∧
     getClaim (create_jwt_token secret now oid).claims "iss" =
       some (.s "space-biology-engine") ∧
     getClaim (create_jwt_token secret now oid).claims "aud" =
       some (.s "space-biology-frontend")) ∧
    (∀ token uid un em db2,
       authenticate_user db secret now identifier password = (.success token uid un em, db2) →
       token = jwt_encode token.claims secret ∧
       getClaim token.claims "user_id" = some (.n uid) ∧
       getClaim token.claims "iat" = some (.n now) ∧
       getClaim token.claims "exp" = some (.n (now + 24 * 3600)) ∧
       getClaim token.claims "iss" = none ∧
       getClaim token.claims "aud" = none ∧
       getClaim token.claims "username" = some (.s un) ∧
       getClaim token.claims "email" = some (.s em)) := by
  constructor
  · refine ⟨rfl, ?_, ?_, ?_, ?_, ?_⟩ <;>
      simp [create_jwt_token, jwt_encode, getClaim, List.find?, JWT_EXPIRATION_DAYS]
  · intro token uid un em db2 hauth
    obtain ⟨htok, -⟩ := authenticate_user_success_inv db secret now identifier password
      token uid un em db2 hauth
    subst htok
    refine ⟨rfl, ?_, ?_, ?_, ?_, ?_, ?_, ?_⟩ <;>
      simp [jwt_encode, getClaim, List.find?, JWT_EXPIRATION_HOURS]

/-- C6 amended witness at concrete inputs: an OAuth token carrying the
fixed issuer, and a concrete password token carrying none. -/
theorem C6_witness :
    getClaim (create_jwt_token "sek" 0 "u1").claims "iss" =
      some (.s "space-biology-engine") ∧
    getClaim sampleToken.claims "iss" = none ∧
    getClaim sampleToken.claims "exp" = some (.n (0 + 24 * 3600)) :=
  ⟨(C6_amended_token_variants "sek" "u1" 0 sampleDB "bob" "secret1").1.2.2.2.2.1,
   ((C6_amended_token_variants "sek" "u1" 0 sampleDB "bob" "secret1").2 sampleToken 1 "bob"
      "bob@x.com" ⟨[sampleUser, sampleUser2], [⟨1, 1, sampleToken, 86400, true⟩], 2⟩
      (by decide)).2.2.2.2.1,
   ((C6_amended_token_variants "sek" "u1" 0 sampleDB "bob" "secret1").2 sampleToken 1 "bob"
      "bob@x.com" ⟨[sampleUser, sampleUser2], [⟨1, 1, sampleToken, 86400, true⟩], 2⟩
      (by decide)).2.2.2.1⟩

/-- C5 (evidence for the code bug): with the signing secret absent from the
environment, the `auth_oauth.py` module initialisation is a fatal startup
error, but the `logic/auth.py` module initialisation silently falls back to
the hard-coded default literal and proceeds — one signing path violates the
mandatory-configuration requirement. -/
theorem C5_signing_secret_startup :
    oauth_jwt_secret_startup [] = .error "JWT_SECRET environment variable must be set!" ∧
    logic_auth_jwt_secret [] = "your-secret-key-change-in-production" := by
  constructor <;> rfl

theorem update_one_set_length (store : List MUser) (i : String) (f : MUser → MUser) :
    (update_one_set store i f).length = store.length := by
  induction store with
  | nil => rfl
  | cons v rest ih =>
    rw [update_one_set]
    by_cases hv : (v.mid == i) = true
    · rw [if_pos hv]; simp
    · rw [if_neg hv]; simp [ih]

theorem find_one_id_update_one_set (store : List MUser) (gid : String) (u : MUser)
    (f : MUser → MUser) (hf : ∀ x, (f x).mid = x.mid)
    (hnodup : (store.map (fun x => x.mid)).Nodup)
    (hfind : find_one_github store gid = some u) :
    find_one_id (update_one_set store u.mid f) u.mid = some (f u) := by
  induction store with
  | nil => simp [find_one_github] at hfind
  | cons v rest ih =>
    simp only [List.map_cons, List.nodup_cons] at hnodup
    obtain ⟨hvnot, hnod⟩ := hnodup
    by_cases hv : (v.github_id == gid) = true
    · have huv : u = v := by
        rw [find_one_github,
          List.find?_cons_of_pos (p := fun x => x.github_id == gid) rest hv] at hfind
        injection hfind with h
        exact h.symm
      subst huv
      rw [update_one_set, if_pos (by simp)]
      rw [find_one_id,
        List.find?_cons_of_pos (p := fun x => x.mid == u.mid) rest (by simp [hf])]
    · rw [find_one_github,
        List.find?_cons_of_neg (p := fun x => x.github_id == gid) rest hv] at hfind
      have humem : u ∈ rest := List.mem_of_find?_eq_some hfind
      have humid : u.mid ∈ rest.map (fun x => x.mid) := List.mem_map_of_mem _ humem
      have hvu : ¬(v.mid == u.mid) = true := by
        simp only [beq_iff_eq]
        intro hcontra
        exact hvnot (hcontra ▸ humid)
      rw [update_one_set, if_neg hvu]
      rw [find_one_id,
        List.find?_cons_of_neg (p := fun x => x.mid == u.mid) (update_one_set rest u.mid f) hvu]
      exact ih hnod hfind

/-- C8: for an existing user document matched by the provider id,
`create_or_update_user` returns the document with all mutable profile
fields and the freshly encrypted secret overwritten and `updated_at` and
`last_login` set to now, while `_id` and `created_at` are untouched and no
document is added; for a never-seen provider id it inserts and returns a
new document with `created_at = updated_at = last_login = now`.  The
hypothesis records MongoDB's guarantee that `_id` values are unique. -/
theorem C8_upsert_from_provider (store : List MUser) (encryptionKey : String)
    (encSalt : List Nat) (newId : String) (now : Nat) (gd : GithubData) (tok : String)
    (hnodup : (store.map (fun x => x.mid)).Nodup) :
    (∀ u, find_one_github store (toString gd.id) = some u →
       (create_or_update_user store encryptionKey encSalt newId now gd tok).1 =
         some (userDataSet gd (encrypt_value encryptionKey encSalt tok) now u) ∧
       (userDataSet gd (encrypt_value encryptionKey encSalt tok) now u).mid = u.mid ∧
       (userDataSet gd (encrypt_value encryptionKey encSalt tok) now u).created_at =
         u.created_at ∧
       (userDataSet gd (encrypt_value encryptionKey encSalt tok) now u).updated_at = now ∧
       (userDataSet gd (encrypt_value encryptionKey encSalt tok) now u).last_login = now ∧
       (userDataSet gd (encrypt_value encryptionKey encSalt tok) now u).email = gd.email ∧
       (userDataSet gd (encrypt_value encryptionKey encSalt tok) now u).username = gd.login ∧
       (userDataSet gd (encrypt_value encryptionKey encSalt tok) now u).access_token =
         encrypt_value encryptionKey encSalt tok ∧
       ((create_or_update_user store encryptionKey encSalt newId now gd tok).2).length =
         store.length) ∧
    (find_one_github store (toString gd.id) = none →
       create_or_update_user store encryptionKey encSalt newId now gd tok =
         (some (insertedUserDoc gd (encrypt_value encryptionKey encSalt tok) newId now),
          store ++ [insertedUserDoc gd (encrypt_value encryptionKey encSalt tok) newId now]) ∧
       (insertedUserDoc gd (encrypt_value encryptionKey encSalt tok) newId now).created_at =
         now ∧
       (insertedUserDoc gd (encrypt_value encryptionKey encSalt tok) newId now).updated_at =
         now ∧
       (insertedUserDoc gd (encrypt_value encryptionKey encSalt tok) newId now).last_login =
         now) := by
  constructor
  · intro u hfind
    refine ⟨?_, rfl, rfl, rfl, rfl, rfl, rfl, rfl, ?_⟩
    · simp only [create_or_update_user, hfind]
      exact find_one_id_update_one_set store (toString gd.id) u _ (fun x => rfl) hnodup hfind
    · simp only [create_or_update_user, hfind]
      exact update_one_set_length _ _ _
  · intro hfind
    refine ⟨?_, rfl, rfl, rfl⟩
    simp only [create_or_update_user, hfind]

/-- C8 witness at concrete inputs: one update of an existing document and
one insert for a never-seen provider id. -/
theorem C8_witness :
    (create_or_update_user [sampleMUser] "k" sampleSalt "newid" 9 sampleGd "tokval").1 =
      some (userDataSet sampleGd (encrypt_value "k" sampleSalt "tokval") 9 sampleMUser) ∧
    (userDataSet sampleGd (encrypt_value "k" sampleSalt "tokval") 9 sampleMUser).created_at =
      sampleMUser.created_at ∧
    create_or_update_user [] "k" sampleSalt "newid" 9 sampleGd "tokval" =
      (some (insertedUserDoc sampleGd (encrypt_value "k" sampleSalt "tokval") "newid" 9),
       [] ++ [insertedUserDoc sampleGd (encrypt_value "k" sampleSalt "tokval") "newid" 9]) := by
  have h1 := (C8_upsert_from_provider [sampleMUser] "k" sampleSalt "newid" 9 sampleGd "tokval"
    (by decide)).1 sampleMUser (by decide)
  have h2 := (C8_upsert_from_provider [] "k" sampleSalt "newid" 9 sampleGd "tokval"
    (by decide)).2 (by decide)
  exact ⟨h1.1, h1.2.2.1, h2.1⟩
